import Mathlib

/-!
Verification of the ATM option collection pipeline.

Shallow embedding of:
- app/brokers/kite_helpers.py  (safe_call, this_month_expiry, next_month_expiry)
- app/collectors/atm_option_collector.py  (ATMOptionCollector.collect and its
  derived-field computations, baseline seeding, bucket/expiry dispatch)
- app/sinks/influx_sink.py  (failure isolation of the time-series write)

Machine numbers are modelled as Int/Rat; optional ("possibly absent or
non-numeric") payload fields are Option-valued; code that can raise is
modelled in Except.
-/

/-! ## safe_call (kite_helpers.py lines 20-97)

One upstream call attempt is classified the way the source's except-arms
classify the raised exception: a successful return, a KiteException that
looks like a TokenException (auth failure), a KiteException carrying a
rate-limit signal (with optional Retry-After hint), any other
KiteException, an HTTPError with status 429 (with optional Retry-After),
any other HTTPError, or any other exception.  The upstream is a stream of
outcomes indexed by attempt number, parameterised by the method name and
argument list so that a single model covers every operation. -/

inductive Outcome (α : Type) where
  | success (v : α)
  | authFailure
  | rateLimited (retryAfter : Option Int)
  | otherKite
  | http429 (retryAfter : Option Int)
  | httpOther
  | otherExc
deriving DecidableEq

/-- Result of safe_call: the upstream payload, or the explicit empty result
(the literal empty dict in the source). -/
inductive CallRes (α : Type) where
  | payload (v : α)
  | empty
deriving DecidableEq

/-- Observable trace of one safe_call invocation: its return value, how many
upstream call attempts were made, and how many times the token-refresh
collaborator (ensure_token_fn) was invoked. -/
structure CallTrace (α : Type) where
  result : CallRes α
  calls : Nat
  refreshes : Nat
deriving DecidableEq

/-- max_retries = 3 in the source. -/
def maxRetries : Nat := 3

/-- The while-True loop of safe_call.  `i` indexes the next upstream call,
`attempt` is the mutable attempt counter (incremented after each retryable
failure and compared against max_retries AFTER the increment), `refreshes`
counts ensure_token_fn invocations.  The loop terminates because every
retryable arm increments `attempt` and returns once `attempt > maxRetries`;
`fuel` (kept equal to maxRetries + 1 - attempt) makes that termination
structural.  The backoff sleeps are timing behaviour and have no effect on
the returned value, so they are not modelled. -/
def safeCallLoop {α : Type} (outcomes : Nat → Outcome α) :
    Nat → Nat → Nat → Nat → CallTrace α
  | i, _, refreshes, 0 => ⟨.empty, i, refreshes⟩
  | i, attempt, refreshes, fuel + 1 =>
    match outcomes i with
    | .success v => ⟨.payload v, i + 1, refreshes⟩
    | .authFailure =>
      -- refresh token (a refresh failure is itself caught and only printed),
      -- then attempt += 1 and the attempt > max_retries check
      if attempt + 1 > maxRetries then ⟨.empty, i + 1, refreshes + 1⟩
      else safeCallLoop outcomes (i + 1) (attempt + 1) (refreshes + 1) fuel
    | .rateLimited _ =>
      -- sleep per Retry-After / exponential backoff, then the same check
      if attempt + 1 > maxRetries then ⟨.empty, i + 1, refreshes⟩
      else safeCallLoop outcomes (i + 1) (attempt + 1) refreshes fuel
    | .http429 _ =>
      if attempt + 1 > maxRetries then ⟨.empty, i + 1, refreshes⟩
      else safeCallLoop outcomes (i + 1) (attempt + 1) refreshes fuel
    | .otherKite => ⟨.empty, i + 1, refreshes⟩
    | .httpOther => ⟨.empty, i + 1, refreshes⟩
    | .otherExc => ⟨.empty, i + 1, refreshes⟩

/-- safe_call(kite, ensure_token_fn, method_name, *args): run the retry loop
from attempt = 0 against the outcome stream of the named operation. -/
def safe_call {α : Type} (upstream : String → List String → Nat → Outcome α)
    (method : String) (args : List String) : CallTrace α :=
  safeCallLoop (upstream method args) 0 0 0 (maxRetries + 1)

/-! ## ATM strike rounding (atm_option_collector.py line 84)

`atm = round(spot / STEP[idx]) * STEP[idx]`.  Python's round() is
round-half-to-even. -/

/-- Python round() on an exact value: nearest integer, ties to even. -/
def pyRound (q : ℚ) : ℤ :=
  if q - ⌊q⌋ < 1 / 2 then ⌊q⌋
  else if 1 / 2 < q - ⌊q⌋ then ⌊q⌋ + 1
  else if ⌊q⌋ % 2 = 0 then ⌊q⌋ else ⌊q⌋ + 1

/-- STEP = NIFTY 50, SENSEX 100, BANKNIFTY 100 (line 19).  The source dict
has no other keys and collect only ever looks these three up; the final
branch is unreachable there. -/
def STEP (idx : String) : ℤ :=
  if idx = "NIFTY" then 50
  else if idx = "SENSEX" then 100
  else if idx = "BANKNIFTY" then 100
  else 0

/-- atm = round(spot / step) * step. -/
def atmStrike (spot : ℚ) (step : ℤ) : ℤ :=
  pyRound (spot / (step : ℚ)) * step

/-! ## Quotes and derived fields (atm_option_collector.py lines 104-176)

A quote is a loosely typed payload: every field may be absent or
non-numeric, modelled as Option.  Open interest and volume are integers in
the source's isinstance checks; prices and implied volatility are int or
float. -/

structure Quote where
  last_price : Option ℚ := none
  average_price : Option ℚ := none
  volume : Option ℤ := none
  oi : Option ℤ := none
  iv : Option ℚ := none
  ohlc_open : Option ℚ := none
  ohlc_high : Option ℚ := none
  ohlc_low : Option ℚ := none
  ohlc_close : Option ℚ := none
deriving DecidableEq

/-- TP (line 125): sum(x for x in [ce last_price, pe last_price] if numeric).
A non-numeric operand contributes nothing; the value is always a number. -/
def tpSum (ce_q pe_q : Quote) : ℚ :=
  (([ce_q.last_price, pe_q.last_price].filterMap id).sum)

/-- PCR (lines 128-129): put OI / call OI if both are ints and call OI is
non-zero, else None. -/
def pcr (ce_q pe_q : Quote) : Option ℚ :=
  match pe_q.oi, ce_q.oi with
  | some p, some c => if c ≠ 0 then some ((p : ℚ) / (c : ℚ)) else none
  | _, _ => none

/-- iv_avg (lines 115-117): mean of the two legs' iv when both numeric. -/
def ivAvg (ce_q pe_q : Quote) : Option ℚ :=
  match ce_q.iv, pe_q.iv with
  | some a, some b => some ((a + b) / 2)
  | _, _ => none

/-- net_change (lines 159-161): last_price - ohlc close when both numeric. -/
def net_change (q : Quote) : Option ℚ :=
  match q.last_price, q.ohlc_close with
  | some l, some c => some (l - c)
  | _, _ => none

/-- net_change_percent (lines 162-166): (last - close) / close * 100 when
both numeric and close is non-zero, else None. -/
def net_change_percent (q : Quote) : Option ℚ :=
  match q.last_price, q.ohlc_close with
  | some l, some c => if c ≠ 0 then some ((l - c) / c * 100) else none
  | _, _ => none

/-- day_change (lines 167-169): last_price - ohlc open when both numeric. -/
def day_change (q : Quote) : Option ℚ :=
  match q.last_price, q.ohlc_open with
  | some l, some o => some (l - o)
  | _, _ => none

/-- day_change_percent (lines 170-174): (last - open) / open * 100 when both
numeric and open is non-zero, else None. -/
def day_change_percent (q : Quote) : Option ℚ :=
  match q.last_price, q.ohlc_open with
  | some l, some o => if o ≠ 0 then some ((l - o) / o * 100) else none
  | _, _ => none

/-- oi_change (line 139): oi_open - oi_curr when both are ints, else None.
Sign convention of the source: baseline minus current. -/
def oi_change (oi_open oi_curr : Option ℤ) : Option ℤ :=
  match oi_open, oi_curr with
  | some b, some c => some (b - c)
  | _, _ => none

/-- iv_day_change (line 122): iv_open_val - iv_avg when both numeric, else
None.  Sign convention of the source: baseline minus current. -/
def iv_day_change (iv_open_val iv_avg_val : Option ℚ) : Option ℚ :=
  match iv_open_val, iv_avg_val with
  | some b, some c => some (b - c)
  | _, _ => none

/-! ## Baseline maps (atm_option_collector.py lines 43-44, 108-121)

oi_open_map and iv_open_map are dicts seeded with the pattern
`if key not in map and incoming is numeric: map[key] = incoming`. -/

/-- A baseline map, keyed by contract token or aggregate key. -/
abbrev BMap (α : Type) := List (String × α)

/-- One seeding step: store the incoming value only when the key is absent
and the value is numeric (a non-numeric/absent incoming value is `none`). -/
def seed {α : Type} (m : BMap α) (k : String) (v : Option α) : BMap α :=
  match v with
  | some x => if (List.lookup k m).isSome then m else (k, x) :: m
  | none => m

/-! ## Records produced per cycle -/

/-- One entry of overview_aggs[idx][label] (lines 124-134). -/
structure Overview where
  TP : ℚ
  OI_CALL : Option ℤ
  OI_PUT : Option ℤ
  PCR : Option ℚ
  atm_iv : Option ℚ
  iv_open : Option ℚ
  iv_day_change : Option ℚ
  days_to_expiry : ℤ
deriving DecidableEq

/-- Build one overview aggregate from the two leg quotes (lines 124-134).
Expiry dates are day ordinals, so days_to_expiry is a plain difference. -/
def mkOverview (ce_q pe_q : Quote) (iv_open_val : Option ℚ) (dte : ℤ) :
    Overview where
  TP := tpSum ce_q pe_q
  OI_CALL := ce_q.oi
  OI_PUT := pe_q.oi
  PCR := pcr ce_q pe_q
  atm_iv := ivAvg ce_q pe_q
  iv_open := iv_open_val
  iv_day_change := iv_day_change iv_open_val (ivAvg ce_q pe_q)
  days_to_expiry := dte

/-- One leg record (lines 141-176).  The half-minute-rounded timestamp is
wall-clock glue and is not modelled. -/
structure LegRecord where
  index : String
  bucket : String
  side : String
  expiry : ℤ
  atm_strike : ℤ
  last_price : Option ℚ
  days_to_expiry : ℤ
  average_price : Option ℚ
  volume : Option ℤ
  oi : Option ℤ
  oi_open : Option ℤ
  oi_change : Option ℤ
  ohlc_open : Option ℚ
  ohlc_high : Option ℚ
  ohlc_low : Option ℚ
  ohlc_close : Option ℚ
  net_change : Option ℚ
  net_change_percent : Option ℚ
  day_change : Option ℚ
  day_change_percent : Option ℚ
  iv : Option ℚ
deriving DecidableEq

/-- Build one leg record from a quote and the looked-up OI baseline. -/
def mkLeg (idx label side : String) (exp atm today : ℤ)
    (oi_open : Option ℤ) (q : Quote) : LegRecord where
  index := idx
  bucket := label
  side := side
  expiry := exp
  atm_strike := atm
  last_price := q.last_price
  days_to_expiry := exp - today
  average_price := q.average_price
  volume := q.volume
  oi := q.oi
  oi_open := oi_open
  oi_change := oi_change oi_open q.oi
  ohlc_open := q.ohlc_open
  ohlc_high := q.ohlc_high
  ohlc_low := q.ohlc_low
  ohlc_close := q.ohlc_close
  net_change := net_change q
  net_change_percent := net_change_percent q
  day_change := day_change q
  day_change_percent := day_change_percent q
  iv := q.iv

/-! ## Monthly expiry calendar rule (kite_helpers.py lines 109-121)

Dates are proleptic-Gregorian; dayOrdinal matches Python's
date.toordinal (ordinal 1 = 1 Jan of year 1, a Monday) and weekday matches
date.weekday (Monday = 0, so Thursday = 3).  calendar.monthcalendar's
Thursday column, with the zero padding dropped, is exactly the ascending
list of the month's Thursdays; thurs[-1] is its last element. -/

def isLeap (y : Nat) : Bool :=
  (y % 4 == 0 && y % 100 != 0) || y % 400 == 0

def daysInMonth (y m : Nat) : Nat :=
  if m = 2 then (if isLeap y then 29 else 28)
  else if m = 4 ∨ m = 6 ∨ m = 9 ∨ m = 11 then 30
  else 31

def daysBeforeYear (y : Nat) : Nat :=
  (y - 1) * 365 + (y - 1) / 4 - (y - 1) / 100 + (y - 1) / 400

def daysBeforeMonth (y m : Nat) : Nat :=
  ((List.range (m - 1)).map (fun i => daysInMonth y (i + 1))).sum

def dayOrdinal (y m d : Nat) : Nat :=
  daysBeforeYear y + daysBeforeMonth y m + d

/-- date(y, m, d).weekday(): Monday = 0 ... Sunday = 6. -/
def weekday (y m d : Nat) : Nat :=
  (dayOrdinal y m d + 6) % 7

/-- The ascending list of day numbers of the month that fall on a Thursday:
the nonzero entries of the w[3] column of calendar.monthcalendar(y, m). -/
def thursdays (y m : Nat) : List Nat :=
  (List.range' 1 (daysInMonth y m)).filter (fun d => weekday y m d == 3)

/-- this_month_expiry for a given (year, month): thurs[-1], the last
Thursday of the month (the source reads year and month from date.today;
here they are the parameters). -/
def this_month_expiry (y m : Nat) : Option Nat :=
  (thursdays y m).getLast?

/-- The (year, month) the source rolls to: m = (t.month % 12) + 1 and
y = t.year + (t.month == 12). -/
def next_month_of (y m : Nat) : Nat × Nat :=
  (y + (if m = 12 then 1 else 0), m % 12 + 1)

/-- next_month_expiry: the last Thursday of the rolled (year, month),
returned together with that year and month. -/
def next_month_expiry (y m : Nat) : Nat × Nat × Option Nat :=
  ((next_month_of y m).1, (next_month_of y m).2,
    this_month_expiry (next_month_of y m).1 (next_month_of y m).2)

/-! ## The collect() cycle (atm_option_collector.py lines 75-192)

The upstream world collect interacts with is a record of oracles: the spot
price per index (already unwrapped from the quote payload, None when the
spot fetch came back empty), the dynamic expiry discovery (the
expiry_discovery module is an external collaborator of this file), the
contract resolution result (abstracting _get_tokens, whose internals no
claim concerns), the joint quote for a (CE, PE) token pair, today's day
ordinal, and the success/failure outcome streams of the two sinks.
Expiry dates are day ordinals (Int). -/

structure CollectEnv where
  spot : String → Option ℚ
  weeklies : String → ℤ → List ℤ
  monthlies : String → ℤ → Option ℤ × Option ℤ
  getTokens : String → ℤ → ℤ → Option String × Option String
  jointQuote : String → String → Quote × Quote
  today : ℤ
  fileWriteOk : Nat → Bool
  hasInflux : Bool
  influxOk : Nat → Bool

/-- The dict built at line 86: both keys present when dynamic discovery ran,
the empty dict (neither key) when use_dynamic_expiries is False. -/
structure ExpiryDict where
  weekly : Option (List ℤ)
  monthly : Option (List ℤ)

/-- Mutable state threaded through one collect() cycle: the two baseline
maps (instance state surviving across cycles), the legs and overview
accumulators, and the sink write counters (fileSeq counts the legs whose
sink writes ran so far and indexes the next outcome of each sink's
outcome stream; influxWrites counts the time-series writes that
succeeded). -/
structure CycleState where
  oiMap : BMap ℤ
  ivMap : BMap ℚ
  legs : List LegRecord
  overview : List (String × String × Overview)
  fileSeq : Nat
  influxWrites : Nat

/-- Sequential composition under Python exception propagation: run the
continuation only when the first step did not raise. -/
def orRaise (x : Except String CycleState)
    (f : CycleState → Except String CycleState) : Except String CycleState :=
  match x with
  | Except.error e => Except.error e
  | Except.ok st => f st

/-- Lines 177-190 for one leg: append the record, write the JSON snapshot
file (NOT wrapped in try/except in the source, so a failure propagates),
then the Influx write (wrapped in try/except both at the call site and
inside write_atm_leg, so a failure is swallowed). -/
def processLeg (env : CollectEnv) (st : CycleState)
    (idx label side : String) (exp atm : ℤ) (tkn : String) (q : Quote) :
    Except String CycleState :=
  let legRec := mkLeg idx label side exp atm env.today
    (List.lookup tkn st.oiMap) q
  let st1 : CycleState := { st with legs := st.legs ++ [legRec] }
  if env.fileWriteOk st1.fileSeq then
    let st2 : CycleState := { st1 with fileSeq := st1.fileSeq + 1 }
    if env.hasInflux then
      Except.ok { st2 with influxWrites :=
                    st2.influxWrites + (if env.influxOk st2.fileSeq then 1 else 0) }
    else Except.ok st2
  else Except.error "file write failed"

/-- Lines 98-190 for one (label, expiry) pair: skip when the expiry is
absent or either token is missing; otherwise fetch the joint quote, seed
the baselines, emit the overview aggregate and process both legs. -/
def processBucket (env : CollectEnv) (st : CycleState)
    (idx : String) (atm : ℤ) (label : String) (exp? : Option ℤ) :
    Except String CycleState :=
  match exp? with
  | none => Except.ok st
  | some exp =>
    match env.getTokens idx atm exp with
    | (some ce_tkn, some pe_tkn) =>
      let qpair := env.jointQuote ce_tkn pe_tkn
      let ce_q := qpair.1
      let pe_q := qpair.2
      let oiM := seed (seed st.oiMap ce_tkn ce_q.oi) pe_tkn pe_q.oi
      let ivM := seed (seed st.ivMap ce_tkn ce_q.iv) pe_tkn pe_q.iv
      let iv_key := idx ++ "_" ++ label ++ "_iv_open"
      let ivM2 := seed ivM iv_key (ivAvg ce_q pe_q)
      let iv_open_val := List.lookup iv_key ivM2
      let ov := mkOverview ce_q pe_q iv_open_val (exp - env.today)
      let st1 : CycleState :=
        { st with
          oiMap := oiM
          ivMap := ivM2
          overview := st.overview ++ [(idx, label, ov)] }
      orRaise (processLeg env st1 idx label "CALL" exp atm ce_tkn ce_q)
        (fun st2 => processLeg env st2 idx label "PUT" exp atm pe_tkn pe_q)
    | _ => Except.ok st

/-- Fold processBucket over the bucket pairs of one index. -/
def processBuckets (env : CollectEnv) (idx : String) (atm : ℤ) :
    CycleState → List (String × Option ℤ) → Except String CycleState
  | st, [] => Except.ok st
  | st, (label, e) :: rest =>
    orRaise (processBucket env st idx atm label e)
      (fun st1 => processBuckets env idx atm st1 rest)

/-- Lines 81-95 for one index: skip the index when the spot is unavailable;
compute the ATM strike; build the expiry dict ({} when dynamic discovery is
disabled); then dispatch the index's buckets.  The BANKNIFTY branch
subscripts exps with "monthly" directly, which raises KeyError when the
key is absent; the other branch only uses .get and is total. -/
def processIdx (env : CollectEnv) (useDynamic : Bool) (st : CycleState)
    (idx : String) : Except String CycleState :=
  match env.spot idx with
  | none => Except.ok st
  | some spot =>
    let atm := atmStrike spot (STEP idx)
    let exps : ExpiryDict :=
      if useDynamic then
        { weekly := some (env.weeklies idx atm),
          monthly := some ([(env.monthlies idx atm).1,
            (env.monthlies idx atm).2].filterMap id) }
      else { weekly := none, monthly := none }
    if idx = "BANKNIFTY" then
      match exps.monthly with
      | none => Except.error "KeyError: monthly"
      | some l =>
        processBuckets env idx atm st
          [("this_month", l[0]?), ("next_month", l[1]?)]
    else
      processBuckets env idx atm st
        [("this_week", match exps.weekly with
            | some (d :: _) => some d
            | _ => none),
         ("next_week", if (exps.weekly.getD []).length > 1
            then (exps.weekly.getD [])[1]? else none),
         ("this_month", match exps.monthly with
            | some (d :: _) => some d
            | _ => none),
         ("next_month", if (exps.monthly.getD []).length > 1
            then (exps.monthly.getD [])[1]? else none)]

/-- Fold processIdx over the index list. -/
def collectIndices (env : CollectEnv) (useDynamic : Bool) :
    CycleState → List String → Except String CycleState
  | st, [] => Except.ok st
  | st, idx :: rest =>
    orRaise (processIdx env useDynamic st idx)
      (fun st1 => collectIndices env useDynamic st1 rest)

/-- collect(): one cycle over the fixed index order, starting from the
instance's current baseline maps.  An uncaught Python exception is the
error case. -/
def collect (env : CollectEnv) (useDynamic : Bool)
    (oiM : BMap ℤ) (ivM : BMap ℚ) : Except String CycleState :=
  collectIndices env useDynamic
    { oiMap := oiM, ivMap := ivM, legs := [], overview := [],
      fileSeq := 0, influxWrites := 0 }
    ["NIFTY", "SENSEX", "BANKNIFTY"]

/-! ## Concrete scenarios used by the theorems below -/

/-- An upstream whose every attempt fails with an auth error. -/
def allAuth : String → List String → Nat → Outcome ℤ :=
  fun _ _ _ => Outcome.authFailure

/-- An upstream that fails with an auth error on the first three attempts
and then succeeds with payload 7. -/
def threeAuthThenOk : String → List String → Nat → Outcome ℤ :=
  fun _ _ i => if i < 3 then Outcome.authFailure else Outcome.success 7

/-- A cycle in which the BANKNIFTY spot fetch succeeds (50000) and every
other upstream interaction is empty; the sinks always succeed. -/
def envC8 : CollectEnv where
  spot := fun idx => if idx = "BANKNIFTY" then some 50000 else none
  weeklies := fun _ _ => []
  monthlies := fun _ _ => (none, none)
  getTokens := fun _ _ _ => (none, none)
  jointQuote := fun _ _ => ({}, {})
  today := 0
  fileWriteOk := fun _ => true
  hasInflux := false
  influxOk := fun _ => true

/-- A cycle in which NIFTY resolves one weekly bucket with both tokens and
quotes present, but every durable snapshot file write fails; the
time-series writer is attached and always succeeds. -/
def envC9 : CollectEnv where
  spot := fun idx => if idx = "NIFTY" then some 24800 else none
  weeklies := fun _ _ => [20000]
  monthlies := fun _ _ => (none, none)
  getTokens := fun _ _ _ => (some "111", some "222")
  jointQuote := fun _ _ =>
    ({ last_price := some 100, oi := some 10 },
     { last_price := some 50, oi := some 20 })
  today := 19990
  fileWriteOk := fun _ => false
  hasInflux := true
  influxOk := fun _ => true

/-- The same cycle with the file sink healthy. -/
def envC9ok : CollectEnv :=
  { envC9 with fileWriteOk := fun _ => true }

/-- Two cycle states agree on everything the cycle's output and control
flow depend on; only the count of successful time-series writes may
differ. -/
def sameCore (a b : CycleState) : Prop :=
  a.oiMap = b.oiMap ∧ a.ivMap = b.ivMap ∧ a.legs = b.legs ∧
    a.overview = b.overview ∧ a.fileSeq = b.fileSeq

/-- Lift sameCore to cycle results: equal error, or ok states agreeing up
to the successful-time-series-write count. -/
def sameCoreE : Except String CycleState → Except String CycleState → Prop
  | Except.ok a, Except.ok b => sameCore a b
  | Except.error e, Except.error e' => e = e'
  | _, _ => False

/-! # Theorems -/

/-! ## safe_call: totality and the retry budget -/

/-- The loop only ever returns the empty result or the payload of a
successful upstream outcome. -/
theorem safeCallLoop_result {α : Type} (outcomes : Nat → Outcome α) :
    ∀ (fuel i a r : Nat),
      (safeCallLoop outcomes i a r fuel).result = CallRes.empty ∨
      ∃ j v, outcomes j = Outcome.success v ∧
        (safeCallLoop outcomes i a r fuel).result = CallRes.payload v := by
  intro fuel
  induction fuel with
  | zero => intro i a r; left; rfl
  | succ fuel ih =>
    intro i a r
    simp only [safeCallLoop]
    split
    · rename_i v heq
      right; exact ⟨i, v, heq, rfl⟩
    · split
      · left; rfl
      · exact ih (i + 1) (a + 1) (r + 1)
    · split
      · left; rfl
      · exact ih (i + 1) (a + 1) r
    · split
      · left; rfl
      · exact ih (i + 1) (a + 1) r
    · left; rfl
    · left; rfl
    · left; rfl

/-- The loop makes at most `fuel` further upstream calls. -/
theorem safeCallLoop_calls_le {α : Type} (outcomes : Nat → Outcome α) :
    ∀ (fuel i a r : Nat), (safeCallLoop outcomes i a r fuel).calls ≤ i + fuel := by
  intro fuel
  induction fuel with
  | zero => intro i a r; exact Nat.le_add_right i 0
  | succ fuel ih =>
    intro i a r
    simp only [safeCallLoop]
    split
    · show i + 1 ≤ i + (fuel + 1); omega
    · split
      · show i + 1 ≤ i + (fuel + 1); omega
      · exact le_trans (ih (i + 1) (a + 1) (r + 1)) (by omega)
    · split
      · show i + 1 ≤ i + (fuel + 1); omega
      · exact le_trans (ih (i + 1) (a + 1) r) (by omega)
    · split
      · show i + 1 ≤ i + (fuel + 1); omega
      · exact le_trans (ih (i + 1) (a + 1) r) (by omega)
    · show i + 1 ≤ i + (fuel + 1); omega
    · show i + 1 ≤ i + (fuel + 1); omega
    · show i + 1 ≤ i + (fuel + 1); omega

/-- C1: for every operation name, argument list, and sequence of upstream
outcomes (success, auth failure, rate limiting with or without a retry
hint, or any other exception), safe_call returns either the upstream
payload of a successful attempt or the explicit empty result; being a
total function into CallRes, it never propagates an exception to its
caller. -/
theorem c1_safe_call_never_raises {α : Type}
    (upstream : String → List String → Nat → Outcome α)
    (method : String) (args : List String) :
    (safe_call upstream method args).result = CallRes.empty ∨
    ∃ i v, upstream method args i = Outcome.success v ∧
      (safe_call upstream method args).result = CallRes.payload v :=
  safeCallLoop_result (upstream method args) (maxRetries + 1) 0 0 0

/-- C2 counterexample: an operation that fails with AuthFailure on exactly
three consecutive attempts and then succeeds returns the upstream payload
(not the empty result) after three token refreshes, so three consecutive
AuthFailures do not exhaust the budget; and on an operation that always
fails with AuthFailure the empty result comes only with FOUR token-refresh
invocations, not three. -/
theorem c2_three_auth_counterexample :
    (safe_call threeAuthThenOk "quote" []).result = CallRes.payload 7 ∧
    (safe_call threeAuthThenOk "quote" []).refreshes = 3 ∧
    (safe_call allAuth "quote" []).result = CallRes.empty ∧
    (safe_call allAuth "quote" []).refreshes = 4 ∧
    ¬ (safe_call allAuth "quote" []).refreshes = 3 := by
  refine ⟨rfl, rfl, rfl, rfl, by decide⟩

/-- C2 (amended): the retry budget is 3 retries AFTER the initial attempt,
so exhaustion takes four consecutive AuthFailures: then safe_call yields
the empty result, the token-refresh collaborator having been invoked
exactly four times over exactly four upstream attempts; no logical call
ever makes more than four upstream attempts. -/
theorem c2_retry_cap :
    (∀ (α : Type) (up : String → List String → Nat → Outcome α)
        (method : String) (args : List String),
      (∀ i, i < 4 → up method args i = Outcome.authFailure) →
      (safe_call up method args).result = CallRes.empty ∧
      (safe_call up method args).refreshes = 4 ∧
      (safe_call up method args).calls = 4) ∧
    (∀ (α : Type) (up : String → List String → Nat → Outcome α)
        (method : String) (args : List String),
      (safe_call up method args).calls ≤ 4) ∧
    ((safe_call allAuth "quote" []).result = CallRes.empty ∧
      (safe_call allAuth "quote" []).refreshes = 4 ∧
      (safe_call allAuth "quote" []).calls = 4) := by
  refine ⟨?_, ?_, rfl, rfl, rfl⟩
  · intro α up method args h
    have h0 := h 0 (by omega)
    have h1 := h 1 (by omega)
    have h2 := h 2 (by omega)
    have h3 := h 3 (by omega)
    simp [safe_call, safeCallLoop, h0, h1, h2, h3, maxRetries]
  · intro α up method args
    simpa using safeCallLoop_calls_le (up method args) (maxRetries + 1) 0 0 0

/-! ## Baseline maps and derived fields -/

/-- C4: every baseline-map key is write-once: once a key holds a value,
any later observation leaves the map unchanged whatever the incoming
value; from an empty map, the first numeric observation is stored and
returned and a second observation still returns the first value.  The
same seeding function is the one used for the per-contract OI map, the
per-contract IV map and the per-aggregate-key averaged-IV map inside
processBucket.  Concretely, observing 100 then 250 under one key stores
and returns 100 both times. -/
theorem c4_baseline_first_observation_wins :
    (∀ (α : Type) (m : BMap α) (k : String) (v : Option α),
      (List.lookup k m).isSome = true → seed m k v = m) ∧
    (∀ (α : Type) (k : String) (v1 v2 : α),
      List.lookup k (seed ([] : BMap α) k (some v1)) = some v1 ∧
      List.lookup k (seed (seed ([] : BMap α) k (some v1)) k (some v2)) =
        some v1) ∧
    (seed (seed ([] : BMap ℤ) "tok" (some 100)) "tok" (some 250) =
        [("tok", 100)] ∧
      List.lookup "tok"
        (seed (seed ([] : BMap ℤ) "tok" (some 100)) "tok" (some 250)) =
        some 100) := by
  refine ⟨?_, ?_, by decide, by decide⟩
  · intro α m k v h
    cases v with
    | none => rfl
    | some x => simp [seed, h]
  · intro α k v1 v2
    have h1 : seed ([] : BMap α) k (some v1) = [(k, v1)] := by
      simp [seed, List.lookup]
    have h2 : List.lookup k [(k, v1)] = some v1 := by
      simp [List.lookup]
    refine ⟨by rw [h1]; exact h2, ?_⟩
    have h3 : seed [(k, v1)] k (some v2) = [(k, v1)] := by
      simp [seed, h2]
    rw [h1, h3]; exact h2

/-- C5: every derived ratio or percentage field is null unless both
operands are numeric and the denominator is non-zero.  The put/call ratio
is null when call OI is absent or zero (or put OI absent) and equals
put OI / call OI otherwise — call OI 100 with put OI 150 gives 3/2; the
percentage fields are null whenever the respective OHLC close/open is
zero or absent (or the last price is absent) — in particular last price
100 with OHLC close 0 gives null, not a division-by-zero error (the
guard in the source tests the denominator before any division is
reached). -/
theorem c5_null_safe_derived_ratios :
    (∀ ce_q pe_q : Quote, ce_q.oi = none → pcr ce_q pe_q = none) ∧
    (∀ ce_q pe_q : Quote, ce_q.oi = some 0 → pcr ce_q pe_q = none) ∧
    (∀ ce_q pe_q : Quote, pe_q.oi = none → pcr ce_q pe_q = none) ∧
    (∀ (ce_q pe_q : Quote) (p c : ℤ),
      pe_q.oi = some p → ce_q.oi = some c → c ≠ 0 →
      pcr ce_q pe_q = some ((p : ℚ) / (c : ℚ))) ∧
    pcr { oi := some 100 } { oi := some 150 } = some (3 / 2) ∧
    (∀ q : Quote,
      q.ohlc_close = none ∨ q.ohlc_close = some 0 ∨ q.last_price = none →
      net_change_percent q = none) ∧
    (∀ q : Quote,
      q.ohlc_open = none ∨ q.ohlc_open = some 0 ∨ q.last_price = none →
      day_change_percent q = none) ∧
    net_change_percent { last_price := some 100, ohlc_close := some 0 } =
      none := by
  refine ⟨?_, ?_, ?_, ?_, ?_, ?_, ?_, ?_⟩
  · intro ce_q pe_q h
    unfold pcr; rw [h]
    rcases pe_q.oi with _ | p <;> rfl
  · intro ce_q pe_q h
    unfold pcr; rw [h]
    rcases pe_q.oi with _ | p <;> simp
  · intro ce_q pe_q h
    unfold pcr; rw [h]
  · intro ce_q pe_q p c hp hc hc0
    unfold pcr; rw [hp, hc]
    simp [hc0]
  · show pcr { oi := some 100 } { oi := some 150 } = some (3 / 2)
    unfold pcr
    norm_num
  · intro q h
    unfold net_change_percent
    rcases h with h | h | h <;> rw [h]
    · rcases q.last_price with _ | l <;> rfl
    · rcases q.last_price with _ | l <;> simp
  · intro q h
    unfold day_change_percent
    rcases h with h | h | h <;> rw [h]
    · rcases q.last_price with _ | l <;> rfl
    · rcases q.last_price with _ | l <;> simp
  · unfold net_change_percent
    simp

/-- C6: the baseline-derived drift fields equal baseline minus current
when both operands are numeric and are null otherwise; the sign is
baseline-minus-current, not current-minus-baseline (baseline 5 with
current 2 gives 3, not -3).  oi_change and iv_day_change are exactly the
expressions the source computes at lines 139 and 122 and are the fields
wired into mkLeg and mkOverview. -/
theorem c6_drift_is_baseline_minus_current :
    (∀ b c : ℤ, oi_change (some b) (some c) = some (b - c)) ∧
    (∀ v : Option ℤ, oi_change none v = none) ∧
    (∀ b : ℤ, oi_change (some b) none = none) ∧
    (∀ b c : ℚ, iv_day_change (some b) (some c) = some (b - c)) ∧
    (∀ v : Option ℚ, iv_day_change none v = none) ∧
    (∀ b : ℚ, iv_day_change (some b) none = none) ∧
    oi_change (some 5) (some 2) = some 3 ∧
    iv_day_change (some 5) (some 2) = some 3 ∧
    oi_change (some 5) (some 2) ≠ some (2 - 5) := by
  refine ⟨fun b c => rfl, fun v => by cases v <;> rfl, fun b => rfl,
    fun b c => rfl, fun v => by cases v <;> rfl, fun b => rfl,
    by decide, ?_, by decide⟩
  show iv_day_change (some 5) (some 2) = some 3
  unfold iv_day_change
  norm_num

/-- C10: the total-premium field TP of every emitted overview aggregate is
a plain number, never null: a leg with an absent or non-numeric last
price contributes nothing to the sum, so with one last price missing TP
equals the other last price alone and with both missing TP is 0 — unlike
PCR and the percentage fields, TP is not nulled on missing operands. -/
theorem c10_total_premium_never_null (ce_q pe_q : Quote)
    (iv_open_val : Option ℚ) (dte : ℤ) :
    (mkOverview ce_q pe_q iv_open_val dte).TP = tpSum ce_q pe_q ∧
    tpSum ce_q pe_q =
      (match ce_q.last_price, pe_q.last_price with
        | some a, some b => a + b
        | some a, none => a
        | none, some b => b
        | none, none => 0) := by
  refine ⟨rfl, ?_⟩
  rcases h1 : ce_q.last_price with _ | a <;>
    rcases h2 : pe_q.last_price with _ | b <;>
      simp [tpSum, h1, h2]

/-! ## ATM rounding: pyRound is a nearest integer, ties to even -/

/-- No integer is strictly closer to q than pyRound q. -/
theorem pyRound_nearest (q : ℚ) (k : ℤ) :
    |(pyRound q : ℚ) - q| ≤ |(k : ℚ) - q| := by
  have hf1 : (⌊q⌋ : ℚ) ≤ q := Int.floor_le q
  have hf2 : q < ⌊q⌋ + 1 := Int.lt_floor_add_one q
  have hC : |(⌊q⌋ : ℚ) - q| = q - ⌊q⌋ := by
    rw [abs_sub_comm]; exact abs_of_nonneg (by linarith)
  have hD : |(⌊q⌋ : ℚ) + 1 - q| = (⌊q⌋ : ℚ) + 1 - q :=
    abs_of_nonneg (by linarith)
  have hk3 : q - ⌊q⌋ ≤ |(k : ℚ) - q| ∨ (⌊q⌋ : ℚ) + 1 - q ≤ |(k : ℚ) - q| := by
    rcases le_or_lt k ⌊q⌋ with hk | hk
    · left
      have hk' : (k : ℚ) ≤ (⌊q⌋ : ℚ) := by exact_mod_cast hk
      rw [abs_sub_comm, abs_of_nonneg (by linarith)]
      linarith
    · right
      have hk0 : ⌊q⌋ + 1 ≤ k := Int.lt_iff_add_one_le.mp hk
      have hk' : (⌊q⌋ : ℚ) + 1 ≤ (k : ℚ) := by exact_mod_cast hk0
      rw [abs_of_nonneg (by linarith)]
      linarith
  unfold pyRound
  split_ifs with h1 h2 h3
  · rw [hC]
    rcases hk3 with h | h <;> linarith
  · push_cast
    rw [hD]
    push_neg at h1
    rcases hk3 with h | h <;> linarith
  · rw [hC]
    push_neg at h1 h2
    rcases hk3 with h | h <;> linarith
  · push_cast
    rw [hD]
    push_neg at h1 h2
    rcases hk3 with h | h <;> linarith

/-- On an exact tie, pyRound returns the even neighbour. -/
theorem pyRound_tie_even (q : ℚ) (h : q - ⌊q⌋ = 1 / 2) :
    pyRound q % 2 = 0 := by
  unfold pyRound
  rw [if_neg (by rw [h]; norm_num), if_neg (by rw [h]; norm_num)]
  split_ifs with h3
  · exact h3
  · omega

/-- C3: for every positive spot p and positive step s (the configured
steps being 50, 100, 100 for NIFTY, SENSEX, BANKNIFTY), the computed ATM
strike round(p/s)*s is an exact multiple of s, no other multiple of s is
strictly closer to p, and an exact tie rounds to the multiple with the
even quotient; concretely spot 24821 with step 50 gives 24800. -/
theorem c3_atm_strike_rounding :
    (STEP "NIFTY" = 50 ∧ STEP "SENSEX" = 100 ∧ STEP "BANKNIFTY" = 100) ∧
    (∀ (p : ℚ) (s : ℤ), 0 < p → 0 < s →
      (s ∣ atmStrike p s) ∧
      (∀ k : ℤ, |((atmStrike p s : ℤ) : ℚ) - p| ≤ |((k * s : ℤ) : ℚ) - p|) ∧
      (p / (s : ℚ) - ⌊p / (s : ℚ)⌋ = 1 / 2 →
        pyRound (p / (s : ℚ)) % 2 = 0)) ∧
    atmStrike 24821 50 = 24800 := by
  refine ⟨⟨rfl, rfl, rfl⟩, ?_, ?_⟩
  · intro p s hp hs
    have hs' : (0 : ℚ) < (s : ℚ) := by exact_mod_cast hs
    have hne : (s : ℚ) ≠ 0 := ne_of_gt hs'
    refine ⟨dvd_mul_left s _, ?_, fun h => pyRound_tie_even _ h⟩
    intro k
    have key := pyRound_nearest (p / (s : ℚ)) k
    have e1 : ((atmStrike p s : ℤ) : ℚ) - p =
        ((pyRound (p / (s : ℚ)) : ℚ) - p / (s : ℚ)) * (s : ℚ) := by
      unfold atmStrike
      push_cast
      field_simp
    have e2 : ((k * s : ℤ) : ℚ) - p = ((k : ℚ) - p / (s : ℚ)) * (s : ℚ) := by
      push_cast
      field_simp
    rw [e1, e2, abs_mul, abs_mul, abs_of_pos hs']
    exact mul_le_mul_of_nonneg_right key (le_of_lt hs')
  · have hf : ⌊(24821 / 50 : ℚ)⌋ = 496 := by
      rw [Int.floor_eq_iff]
      norm_num
    have h50 : ((50 : ℤ) : ℚ) = 50 := by norm_num
    unfold atmStrike pyRound
    rw [h50, hf, if_pos (by norm_num)]
    decide

/-! ## Monthly expiry: the last Thursday of the month -/

/-- Every month has at least 28 days. -/
theorem daysInMonth_ge (y m : Nat) : 28 ≤ daysInMonth y m := by
  unfold daysInMonth
  split_ifs <;> omega

/-- Every month contains a Thursday (already within its first 28 days). -/
theorem exists_thursday (y m : Nat) :
    ∃ d, 1 ≤ d ∧ d ≤ daysInMonth y m ∧ weekday y m d = 3 := by
  have h28 := daysInMonth_ge y m
  refine ⟨(9 - (daysBeforeYear y + daysBeforeMonth y m + 6) % 7) % 7 + 1,
    by omega, by omega, ?_⟩
  show (dayOrdinal y m _ + 6) % 7 = 3
  unfold dayOrdinal
  omega

/-- Membership in the Thursday column. -/
theorem mem_thursdays (y m d : Nat) :
    d ∈ thursdays y m ↔
      1 ≤ d ∧ d ≤ daysInMonth y m ∧ weekday y m d = 3 := by
  simp only [thursdays, List.mem_filter, List.mem_range'_1, beq_iff_eq]
  constructor
  · rintro ⟨⟨ha, hb⟩, hc⟩
    exact ⟨ha, by omega, hc⟩
  · rintro ⟨ha, hb, hc⟩
    exact ⟨⟨ha, by omega⟩, hc⟩

/-- The Thursday column is strictly ascending. -/
theorem thursdays_sorted (y m : Nat) :
    (thursdays y m).Pairwise (· < ·) :=
  List.Pairwise.filter _ (List.pairwise_lt_range' 1 (daysInMonth y m))

/-- getLast? of a list yields one of its members. -/
theorem mem_of_getLast?_eq : ∀ (l : List Nat) (y : Nat),
    l.getLast? = some y → y ∈ l
  | [], y => by simp
  | [a], y => by
    intro h
    simp only [List.getLast?_singleton, Option.some.injEq] at h
    simp [h]
  | a :: b :: t, y => by
    rw [List.getLast?_cons_cons]
    intro h
    exact List.mem_cons_of_mem a (mem_of_getLast?_eq (b :: t) y h)

/-- A nonempty list has a last element. -/
theorem getLast?_of_ne_nil : ∀ (l : List Nat), l ≠ [] →
    ∃ y, l.getLast? = some y
  | [], h => absurd rfl h
  | [a], _ => ⟨a, List.getLast?_singleton a⟩
  | a :: b :: t, _ => by
    rw [List.getLast?_cons_cons]
    exact getLast?_of_ne_nil (b :: t) (by simp)

/-- In a strictly ascending list, getLast? is an upper bound. -/
theorem sorted_le_getLast : ∀ (l : List Nat), l.Pairwise (· < ·) →
    ∀ x ∈ l, ∀ y, l.getLast? = some y → x ≤ y
  | [], _, x, hx, _, _ => absurd hx (List.not_mem_nil x)
  | [a], _, x, hx, y, hy => by
    simp only [List.getLast?_singleton, Option.some.injEq] at hy
    rw [List.mem_singleton] at hx
    omega
  | a :: b :: t, hp, x, hx, y, hy => by
    rw [List.getLast?_cons_cons] at hy
    rcases List.pairwise_cons.mp hp with ⟨hab, htail⟩
    rcases List.mem_cons.mp hx with rfl | hx'
    · have hmem := mem_of_getLast?_eq (b :: t) y hy
      exact le_of_lt (hab y hmem)
    · exact sorted_le_getLast (b :: t) htail x hx' y hy

/-- C7: for every (year, month) pair the this-month expiry is the last
Thursday falling within that calendar month — the returned day is a
Thursday (weekday 3, Python's Monday-is-0 convention), it lies within the
month, and no later day of the month is a Thursday — and next_month_expiry
applies the same rule to the following month, rolling December to January
of the next year. -/
theorem c7_monthly_expiry_last_thursday :
    (∀ y m, ∃ d, this_month_expiry y m = some d ∧
      1 ≤ d ∧ d ≤ daysInMonth y m ∧ weekday y m d = 3 ∧
      ∀ e, d < e → e ≤ daysInMonth y m → weekday y m e ≠ 3) ∧
    (∀ y m, next_month_expiry y m =
      ((next_month_of y m).1, (next_month_of y m).2,
        this_month_expiry (next_month_of y m).1 (next_month_of y m).2)) ∧
    (∀ y, next_month_of y 12 = (y + 1, 1)) ∧
    (∀ y m, m % 12 + 1 = (next_month_of y m).2) ∧
    next_month_of 2025 12 = (2026, 1) ∧
    this_month_expiry 2025 12 = some 25 := by
  refine ⟨?_, fun y m => rfl, ?_, fun y m => rfl, by decide, by decide⟩
  · intro y m
    obtain ⟨d0, h1, h2, h3⟩ := exists_thursday y m
    have hmem : d0 ∈ thursdays y m := (mem_thursdays y m d0).mpr ⟨h1, h2, h3⟩
    obtain ⟨d, hd⟩ := getLast?_of_ne_nil (thursdays y m)
      (List.ne_nil_of_mem hmem)
    have hdmem := mem_of_getLast?_eq _ _ hd
    obtain ⟨hd1, hd2, hd3⟩ := (mem_thursdays y m d).mp hdmem
    refine ⟨d, hd, hd1, hd2, hd3, ?_⟩
    intro e he1 he2 he3
    have hemem : e ∈ thursdays y m :=
      (mem_thursdays y m e).mpr ⟨by omega, he2, he3⟩
    have := sorted_le_getLast _ (thursdays_sorted y m) e hemem d hd
    omega
  · intro y
    show (y + (if 12 = 12 then 1 else 0), 12 % 12 + 1) = (y + 1, 1)
    norm_num

/-! ## collect() with dynamic expiry discovery disabled -/

/-- With dynamic discovery disabled, an index other than BANKNIFTY reads
its four buckets through .get on the empty dict, finds no expiry, and
skips all of them: the state passes through untouched. -/
theorem processIdx_disabled_skip (env : CollectEnv) (st : CycleState)
    (idx : String) (h : idx ≠ "BANKNIFTY") :
    processIdx env false st idx = Except.ok st := by
  unfold processIdx
  cases hs : env.spot idx with
  | none => rfl
  | some spot =>
    simp only [h, Bool.false_eq_true, if_false, ite_false]
    simp [processBuckets, processBucket, orRaise]

/-- With dynamic discovery disabled and a BANKNIFTY spot price available,
the BANKNIFTY branch subscripts the empty expiry dict with "monthly" and
raises KeyError. -/
theorem processIdx_disabled_bank (env : CollectEnv) (st : CycleState)
    (p : ℚ) (h : env.spot "BANKNIFTY" = some p) :
    processIdx env false st "BANKNIFTY" = Except.error "KeyError: monthly" := by
  unfold processIdx
  rw [h]
  rfl

/-- C8 (refuting the claimed no-raise behaviour, exhibiting the code bug):
when use_dynamic_expiries is False and the BANKNIFTY spot fetch succeeds,
collect() does NOT complete: the NIFTY and SENSEX indices fall through
harmlessly (their bucket lookups use .get on the empty dict), but the
BANKNIFTY branch evaluates the "monthly" subscript of the empty dict and
the cycle aborts with KeyError instead of returning its
{legs, overview} structure.  Concretely: in envC8 the only successful
upstream interaction is BANKNIFTY spot = 50000, every sink is healthy,
and collect raises. -/
theorem c8_disabled_discovery_raises_keyerror :
    (∀ (env : CollectEnv) (p : ℚ) (oiM : BMap ℤ) (ivM : BMap ℚ),
      env.spot "BANKNIFTY" = some p →
      collect env false oiM ivM = Except.error "KeyError: monthly") ∧
    collect envC8 false [] [] = Except.error "KeyError: monthly" := by
  have hgen : ∀ (env : CollectEnv) (p : ℚ) (oiM : BMap ℤ) (ivM : BMap ℚ),
      env.spot "BANKNIFTY" = some p →
      collect env false oiM ivM = Except.error "KeyError: monthly" := by
    intro env p oiM ivM h
    unfold collect
    simp only [collectIndices,
      processIdx_disabled_skip env _ "NIFTY" (by decide),
      processIdx_disabled_skip env _ "SENSEX" (by decide),
      processIdx_disabled_bank env _ p h, orRaise]
  exact ⟨hgen, hgen envC8 50000 [] [] rfl⟩

/-! ## Sink failure isolation -/

/-- Chain successes through the error-propagating composition used by
processBucket, processBuckets and collectIndices. -/
theorem exceptBindOk {x : Except String CycleState}
    {f : CycleState → Except String CycleState}
    (hx : ∃ a, x = Except.ok a) (hf : ∀ a, ∃ b, f a = Except.ok b) :
    ∃ b, orRaise x f = Except.ok b := by
  rcases hx with ⟨a, rfl⟩
  exact hf a

/-- With a healthy file sink, one leg always processes successfully. -/
theorem processLeg_ok (env : CollectEnv)
    (hAll : ∀ k, env.fileWriteOk k = true) (st : CycleState)
    (idx label side : String) (exp atm : ℤ) (tkn : String) (q : Quote) :
    ∃ st', processLeg env st idx label side exp atm tkn q = Except.ok st' := by
  unfold processLeg
  by_cases hi : env.hasInflux = true <;>
    exact ⟨_, by simp [hAll, hi]; rfl⟩

/-- With a healthy file sink, one bucket always processes successfully. -/
theorem processBucket_ok (env : CollectEnv)
    (hAll : ∀ k, env.fileWriteOk k = true) (st : CycleState)
    (idx : String) (atm : ℤ) (label : String) (e : Option ℤ) :
    ∃ st', processBucket env st idx atm label e = Except.ok st' := by
  cases e with
  | none => exact ⟨st, rfl⟩
  | some exp =>
    simp only [processBucket]
    rcases hgt : env.getTokens idx atm exp with ⟨o1, o2⟩
    cases o1 with
    | none => exact ⟨st, rfl⟩
    | some ce =>
      cases o2 with
      | none => exact ⟨st, rfl⟩
      | some pe =>
        exact exceptBindOk (processLeg_ok env hAll _ _ _ _ _ _ _ _)
          (fun a => processLeg_ok env hAll a _ _ _ _ _ _ _)

/-- With a healthy file sink, a bucket list always processes successfully. -/
theorem processBuckets_ok (env : CollectEnv)
    (hAll : ∀ k, env.fileWriteOk k = true) (idx : String) (atm : ℤ) :
    ∀ (pairs : List (String × Option ℤ)) (st : CycleState),
      ∃ st', processBuckets env idx atm st pairs = Except.ok st' := by
  intro pairs
  induction pairs with
  | nil => exact fun st => ⟨st, rfl⟩
  | cons p rest ih =>
    intro st
    obtain ⟨label, e⟩ := p
    unfold processBuckets
    exact exceptBindOk (processBucket_ok env hAll st idx atm label e)
      (fun a => ih a)

/-- With dynamic discovery on and a healthy file sink, every index
processes successfully whatever the time-series sink does. -/
theorem processIdx_ok (env : CollectEnv)
    (hAll : ∀ k, env.fileWriteOk k = true) (st : CycleState) (idx : String) :
    ∃ st', processIdx env true st idx = Except.ok st' := by
  unfold processIdx
  cases hs : env.spot idx with
  | none => exact ⟨st, rfl⟩
  | some spot =>
    by_cases hb : idx = "BANKNIFTY"
    · subst hb
      exact processBuckets_ok env hAll _ _ _ st
    · simp only [hb, ite_false, if_false]
      exact processBuckets_ok env hAll _ _ _ st

/-- With dynamic discovery on and a healthy file sink, collect returns
its result structure whatever the time-series sink does. -/
theorem collect_ok_of_file_sink_ok (env : CollectEnv)
    (hAll : ∀ k, env.fileWriteOk k = true) (oiM : BMap ℤ) (ivM : BMap ℚ) :
    ∃ st, collect env true oiM ivM = Except.ok st := by
  unfold collect collectIndices
  exact exceptBindOk (processIdx_ok env hAll _ "NIFTY") (fun a =>
    exceptBindOk (processIdx_ok env hAll a "SENSEX") (fun b =>
      exceptBindOk (processIdx_ok env hAll b "BANKNIFTY") (fun c => ⟨c, rfl⟩)))

/-- sameCoreE respects the error-propagating composition. -/
theorem sameCoreE_bind {x y : Except String CycleState}
    {f g : CycleState → Except String CycleState}
    (hxy : sameCoreE x y) (hfg : ∀ a b, sameCore a b → sameCoreE (f a) (g b)) :
    sameCoreE (orRaise x f) (orRaise y g) := by
  unfold orRaise
  cases x with
  | error e =>
    cases y with
    | error e' => exact hxy
    | ok b => exact absurd hxy (by simp [sameCoreE])
  | ok a =>
    cases y with
    | error e' => exact absurd hxy (by simp [sameCoreE])
    | ok b => exact hfg a b hxy

/-- The time-series sink outcome stream influences nothing but the count
of successful time-series writes: one leg step. -/
theorem processLeg_sim (env : CollectEnv) (f : Nat → Bool) (s t : CycleState)
    (h : sameCore s t) (idx label side : String) (exp atm : ℤ)
    (tkn : String) (q : Quote) :
    sameCoreE
      (processLeg { env with influxOk := f } s idx label side exp atm tkn q)
      (processLeg env t idx label side exp atm tkn q) := by
  obtain ⟨soi, siv, sl, so, sf, sw⟩ := s
  obtain ⟨toi, tiv, tl, tov, tf, tw⟩ := t
  obtain ⟨h1, h2, h3, h4, h5⟩ := h
  simp only at h1 h2 h3 h4 h5
  subst h1; subst h2; subst h3; subst h4; subst h5
  unfold processLeg
  by_cases hw : env.fileWriteOk sf = true
  · by_cases hi : env.hasInflux = true
    · simp [hw, hi, sameCoreE, sameCore]
    · simp [hw, hi, sameCoreE, sameCore]
  · simp [hw, sameCoreE]

/-- The time-series sink outcome stream influences nothing but the count
of successful time-series writes: one bucket step. -/
theorem processBucket_sim (env : CollectEnv) (f : Nat → Bool)
    (s t : CycleState) (h : sameCore s t) (idx : String) (atm : ℤ)
    (label : String) (e : Option ℤ) :
    sameCoreE
      (processBucket { env with influxOk := f } s idx atm label e)
      (processBucket env t idx atm label e) := by
  cases e with
  | none => exact h
  | some exp =>
    simp only [processBucket]
    rcases hgt : env.getTokens idx atm exp with ⟨o1, o2⟩
    cases o1 with
    | none => exact h
    | some ce =>
      cases o2 with
      | none => exact h
      | some pe =>
        obtain ⟨h1, h2, h3, h4, h5⟩ := h
        dsimp only
        refine sameCoreE_bind
          (processLeg_sim env f _ _ ?_ idx label "CALL" exp atm ce _)
          (fun a b hab => processLeg_sim env f a b hab idx label "PUT" exp atm pe _)
        exact ⟨by rw [h1], by rw [h2], h3, by rw [h2, h4], h5⟩

/-- The time-series sink outcome stream influences nothing but the count
of successful time-series writes: one bucket list. -/
theorem processBuckets_sim (env : CollectEnv) (f : Nat → Bool)
    (idx : String) (atm : ℤ) :
    ∀ (pairs : List (String × Option ℤ)) (s t : CycleState),
      sameCore s t →
      sameCoreE
        (processBuckets { env with influxOk := f } idx atm s pairs)
        (processBuckets env idx atm t pairs)
  | [], _, _, h => h
  | (label, e) :: rest, s, t, h => by
    simp only [processBuckets]
    exact sameCoreE_bind (processBucket_sim env f s t h idx atm label e)
      (fun a b hab => processBuckets_sim env f idx atm rest a b hab)

/-- The time-series sink outcome stream influences nothing but the count
of successful time-series writes: one index step. -/
theorem processIdx_sim (env : CollectEnv) (f : Nat → Bool) (u : Bool)
    (s t : CycleState) (h : sameCore s t) (idx : String) :
    sameCoreE
      (processIdx { env with influxOk := f } u s idx)
      (processIdx env u t idx) := by
  unfold processIdx
  cases hs : env.spot idx with
  | none => exact h
  | some spot =>
    by_cases hb : idx = "BANKNIFTY"
    · subst hb
      cases u with
      | false => exact rfl
      | true => exact processBuckets_sim env f _ _ _ s t h
    · simp only [hb, ite_false, if_false]
      exact processBuckets_sim env f _ _ _ s t h

/-- The time-series sink outcome stream influences nothing but the count
of successful time-series writes: the index list. -/
theorem collectIndices_sim (env : CollectEnv) (f : Nat → Bool) (u : Bool) :
    ∀ (l : List String) (s t : CycleState), sameCore s t →
      sameCoreE
        (collectIndices { env with influxOk := f } u s l)
        (collectIndices env u t l)
  | [], _, _, h => h
  | idx :: rest, s, t, h => by
    simp only [collectIndices]
    exact sameCoreE_bind (processIdx_sim env f u s t h idx)
      (fun a b hab => collectIndices_sim env f u rest a b hab)

/-- C9 counterexample: in envC9 the NIFTY this_week bucket resolves fully
(both tokens, quotes present) and the very first durable-snapshot file
write fails; collect() then aborts with that error instead of logging,
swallowing it and carrying on — the file write at lines 179-183 of the
collector is not wrapped in try/except. -/
theorem c9_file_write_failure_escalates :
    collect envC9 true [] [] = Except.error "file write failed" := by
  rfl

/-- C9 (amended): time-series (Influx) write failures are isolated per
record — the outcome stream of the time-series sink influences nothing in
the cycle but the count of successful time-series writes, and with a
healthy file sink a dynamic-discovery cycle always returns its
{legs, overview} structure whatever the time-series sink does; a
durable-snapshot FILE write failure, by contrast, propagates out of
collect() and aborts that leg's time-series write and all remaining
writes (shown by the counterexample theorem).  Instantiated at the
concrete envC9ok scenario. -/
theorem c9_sink_failure_isolation :
    (∀ (env : CollectEnv) (oiM : BMap ℤ) (ivM : BMap ℚ),
      (∀ k, env.fileWriteOk k = true) →
      ∃ st, collect env true oiM ivM = Except.ok st) ∧
    (∀ (env : CollectEnv) (f : Nat → Bool) (u : Bool)
        (oiM : BMap ℤ) (ivM : BMap ℚ),
      sameCoreE (collect { env with influxOk := f } u oiM ivM)
        (collect env u oiM ivM)) ∧
    (∃ st, collect envC9ok true [] [] = Except.ok st) ∧
    sameCoreE (collect { envC9ok with influxOk := fun _ => false } true [] [])
      (collect envC9ok true [] []) := by
  have hsim : ∀ (env : CollectEnv) (f : Nat → Bool) (u : Bool)
      (oiM : BMap ℤ) (ivM : BMap ℚ),
      sameCoreE (collect { env with influxOk := f } u oiM ivM)
        (collect env u oiM ivM) := by
    intro env f u oiM ivM
    exact collectIndices_sim env f u ["NIFTY", "SENSEX", "BANKNIFTY"] _ _
      ⟨rfl, rfl, rfl, rfl, rfl⟩
  exact ⟨fun env oiM ivM hAll => collect_ok_of_file_sink_ok env hAll oiM ivM,
    hsim,
    collect_ok_of_file_sink_ok envC9ok (fun _ => rfl) [] [],
    hsim envC9ok (fun _ => false) true [] []⟩
